import Mathlib

/-!
Shallow embedding of `dataset_generator.py` (synthetic e-commerce dataset
generator): the inventory ledger, the session-linked and independent
transaction-settlement paths, the page-view journey simulator, the
generation driver loop, and the catalog builder.  Randomness is modelled
by explicit oracle parameters (the values the Python `random`/`faker`
calls would have produced); machine floats are modelled by exact
rationals with `round2` standing for Python's `round(x, 2)`; time is
modelled as natural numbers.
-/

abbrev ProductId := String

/-- `round(x, 2)` of Python, modelled as exact decimal rounding of a
rational to 2 places. -/
def round2 (x : ℚ) : ℚ := (round (100 * x) : ℤ) / 100

/-- `InventoryManager.products`: mapping product id ↦ current stock
(only the stock field matters to the ledger's mutation). -/
structure InventoryManager where
  products : List (ProductId × ℤ)
deriving DecidableEq, Repr

/-- Read a product's current stock (absent ↦ `none`), as the dict lookup
`self.products[product_id]["current_stock"]`. -/
def lookupStock (inv : InventoryManager) (product_id : ProductId) : Option ℤ :=
  (inv.products.find? (fun e => e.1 = product_id)).map (fun e => e.2)

/-- `InventoryManager.update_stock`: returns `False` if the product is
unknown; if `current_stock >= quantity` subtracts `quantity` and returns
`True`; otherwise returns `False` without mutating.  (The Python lock is
irrelevant in this sequential model.) -/
def update_stock (inv : InventoryManager) (product_id : ProductId) (quantity : ℕ) :
    Bool × InventoryManager :=
  match lookupStock inv product_id with
  | none => (false, inv)
  | some s =>
    if (quantity : ℤ) ≤ s then
      (true, ⟨inv.products.map (fun e =>
        if e.1 = product_id then (e.1, e.2 - (quantity : ℤ)) else e)⟩)
    else (false, inv)

/-- One entry of a session's `cart_contents`: product id ↦ quantity and
the price stored when the cart line was created. -/
structure CartLine where
  product_id : ProductId
  quantity : ℕ
  price : ℚ
deriving DecidableEq, Repr

/-- One element of a transaction's `items` list. -/
structure TxnItem where
  product_id : ProductId
  quantity : ℕ
  unit_price : ℚ
  subtotal : ℚ
deriving DecidableEq, Repr

/-- The line item built in the settlement loops:
`{"product_id": ..., "quantity": ..., "unit_price": details["price"],
"subtotal": round(quantity * price, 2)}`. -/
def mkTxnItem (c : CartLine) : TxnItem :=
  ⟨c.product_id, c.quantity, c.price, round2 ((c.quantity : ℚ) * c.price)⟩

/-- A recorded transaction (only the fields the claims reason about;
`session_id` is `none` on the independent path). -/
structure Transaction where
  session_id : Option String
  user_id : String
  items : List TxnItem
  subtotal : ℚ
  discount : ℚ
  total : ℚ
deriving DecidableEq, Repr

/-- `random.choice([0.05, 0.1, 0.15, 0.2])`. -/
def discountRates : List ℚ := [5/100, 10/100, 15/100, 20/100]

/-- The settlement discount: `discount = 0`, overwritten by
`round(subtotal * discount_rate, 2)` when the 20% draw fires; the draw
and the rate choice are the oracle `o`. -/
def computeDiscount (o : Option (Fin 4)) (subtotal : ℚ) : ℚ :=
  match o with
  | none => 0
  | some i => round2 (subtotal * discountRates.get i)

/-- Result of the session-linked cart loop: the threaded inventory, the
accumulated `transaction_items`, and the `valid` flag. -/
structure SettleResult where
  inv : InventoryManager
  items : List TxnItem
  valid : Bool
deriving DecidableEq, Repr

/-- The session-linked settlement loop (`for prod_id, details in
cart_contents.items()`): lines with `quantity > 0` attempt
`inventory.update_stock`; on success the line item is appended; on the
first failure `valid = False` and the loop breaks (items appended so far
and stock already reserved are kept). -/
def settleLoop (inv : InventoryManager) :
    List CartLine → List TxnItem → SettleResult
  | [], acc => ⟨inv, acc, true⟩
  | c :: rest, acc =>
    if 0 < c.quantity then
      match update_stock inv c.product_id c.quantity with
      | (true, inv1) => settleLoop inv1 rest (acc ++ [mkTxnItem c])
      | (false, inv1) => ⟨inv1, acc, false⟩
    else settleLoop inv rest acc

/-- The session-linked settlement path (`if valid and transaction_items:`):
builds the transaction with subtotal, optional discount and rounded
total, or records nothing. -/
def settleTransaction (inv : InventoryManager) (cart : List CartLine)
    (session_id user_id : String) (o : Option (Fin 4)) :
    InventoryManager × Option Transaction :=
  let r := settleLoop inv cart []
  if r.valid = true ∧ r.items ≠ [] then
    let subtotal := (r.items.map (fun it => it.subtotal)).sum
    let discount := computeDiscount o subtotal
    let total := round2 (subtotal - discount)
    (r.inv, some ⟨some session_id, user_id, r.items, subtotal, discount, total⟩)
  else (r.inv, none)

/-- A product as sampled by the independent path (`random.sample`):
identifier, `base_price`, `is_active` flag. -/
structure SampledProduct where
  product_id : ProductId
  base_price : ℚ
  is_active : Bool
deriving DecidableEq, Repr

/-- The independent path's basket loop (`for product in products_in_txn`):
inactive products are skipped; active ones attempt `update_stock` with
the sampled quantity, appending a line item only on success — a failure
skips the product and the loop continues. -/
def independentLoop (inv : InventoryManager) :
    List (SampledProduct × ℕ) → List TxnItem → InventoryManager × List TxnItem
  | [], acc => (inv, acc)
  | (p, q) :: rest, acc =>
    if p.is_active = true then
      match update_stock inv p.product_id q with
      | (true, inv1) =>
        independentLoop inv1 rest
          (acc ++ [⟨p.product_id, q, p.base_price, round2 ((q : ℚ) * p.base_price)⟩])
      | (false, inv1) => independentLoop inv1 rest acc
    else independentLoop inv rest acc

/-- The independent transaction path (`if transaction_items:`): emits a
transaction with `session_id = None` exactly when at least one line item
survived the basket loop. -/
def independentTransaction (inv : InventoryManager)
    (prods : List (SampledProduct × ℕ)) (user_id : String) (o : Option (Fin 4)) :
    InventoryManager × Option Transaction :=
  let r := independentLoop inv prods []
  if r.2 ≠ [] then
    let subtotal := (r.2.map (fun it => it.subtotal)).sum
    let discount := computeDiscount o subtotal
    let total := round2 (subtotal - discount)
    (r.1, some ⟨none, user_id, r.2, subtotal, discount, total⟩)
  else (r.1, none)

/-! ### Generation-run model (claim C1)

The inventory is touched only by the two settlement paths; a run of the
generation loop, viewed at the inventory ledger's level, is a sequence of
settlement operations. -/

inductive GenOp where
  | settleOp (cart : List CartLine) (session_id user_id : String) (o : Option (Fin 4))
  | indepOp (prods : List (SampledProduct × ℕ)) (user_id : String) (o : Option (Fin 4))

def applyOp (inv : InventoryManager) : GenOp → InventoryManager × Option Transaction
  | GenOp.settleOp cart session_id user_id o =>
      settleTransaction inv cart session_id user_id o
  | GenOp.indepOp prods user_id o => independentTransaction inv prods user_id o

/-- Thread the inventory through a run's settlement operations,
collecting the recorded (committed) transactions. -/
def runGen (inv : InventoryManager) : List GenOp → InventoryManager × List Transaction
  | [] => (inv, [])
  | op :: rest =>
    ((runGen (applyOp inv op).1 rest).1,
      (applyOp inv op).2.toList ++ (runGen (applyOp inv op).1 rest).2)

/-- Quantity of a given product across a transaction's line items. -/
def itemsQty (items : List TxnItem) (pid : ProductId) : ℕ :=
  (items.map (fun it => if it.product_id = pid then it.quantity else 0)).sum

/-- Quantity of a given product across all recorded transactions. -/
def txnsQty (ts : List Transaction) (pid : ProductId) : ℕ :=
  (ts.map (fun t => itemsQty t.items pid)).sum

/-- Quantity of `pid` successfully reserved by the session-linked
settlement loop (mirrors `settleLoop`, counting each successful
`update_stock`). -/
def settleLoopReserved (inv : InventoryManager) :
    List CartLine → ProductId → ℕ
  | [], _ => 0
  | c :: rest, pid =>
    if 0 < c.quantity then
      match update_stock inv c.product_id c.quantity with
      | (true, inv1) =>
        (if c.product_id = pid then c.quantity else 0) +
          settleLoopReserved inv1 rest pid
      | (false, _) => 0
    else settleLoopReserved inv rest pid

/-- Quantity of `pid` successfully reserved by the independent basket
loop. -/
def independentLoopReserved (inv : InventoryManager) :
    List (SampledProduct × ℕ) → ProductId → ℕ
  | [], _ => 0
  | (p, q) :: rest, pid =>
    if p.is_active = true then
      match update_stock inv p.product_id q with
      | (true, inv1) =>
        (if p.product_id = pid then q else 0) +
          independentLoopReserved inv1 rest pid
      | (false, inv1) => independentLoopReserved inv1 rest pid
    else independentLoopReserved inv rest pid

def opReserved (inv : InventoryManager) : GenOp → ProductId → ℕ
  | GenOp.settleOp cart _ _ _, pid => settleLoopReserved inv cart pid
  | GenOp.indepOp prods _ _, pid => independentLoopReserved inv prods pid

/-- Total quantity of `pid` successfully reserved over a whole run. -/
def runReserved (inv : InventoryManager) : List GenOp → ProductId → ℕ
  | [], _ => 0
  | op :: rest, pid =>
    opReserved inv op pid + runReserved (applyOp inv op).1 rest pid

/-! ### Page-view timestamps (claim C4) -/

/-- The `page_idx`-th page view's timestamp:
`session_start + page_idx * (session_duration // max(num_pages, 1))`
(seconds; `//` is floor division). -/
def pageTimestamp (session_start session_duration num_pages page_idx : ℕ) : ℕ :=
  session_start + page_idx * (session_duration / max num_pages 1)

/-- Timestamps of the session's page views in order. -/
def pageTimestamps (session_start session_duration num_pages : ℕ) : List ℕ :=
  (List.range num_pages).map (pageTimestamp session_start session_duration num_pages)

/-! ### Journey simulator: cart and conversion (claim C8) -/

/-- The per-page random draws: the page type chosen by
`determine_page_type`, the product bound to the page (present only on
`product_detail` pages), the 20% add-to-cart draw, the `randint(1, 3)`
quantity, and the 70% purchase-commit draw. -/
structure PageChoice where
  page_type : String
  product : Option (ProductId × ℚ)
  addDraw : Bool
  addQty : ℕ
  convertDraw : Bool
deriving DecidableEq, Repr

/-- `cart_contents[prod_id]` creation/increment: a missing line is
created (with the product's current `base_price`) and the quantity is
incremented. -/
def addToCart (cart : List (ProductId × ℕ × ℚ)) (pid : ProductId) (price : ℚ)
    (qty : ℕ) : List (ProductId × ℕ × ℚ) :=
  if cart.any (fun e => e.1 = pid) then
    cart.map (fun e => if e.1 = pid then (e.1, e.2.1 + qty, e.2.2) else e)
  else cart ++ [(pid, qty, price)]

structure SessionState where
  cart_contents : List (ProductId × ℕ × ℚ)
  converted : Bool
deriving DecidableEq, Repr

/-- One iteration of the page loop: possible cart mutation (on a
`product_detail` page with a bound product and a successful 20% draw),
then the conversion check (`checkout`/`confirmation` page with non-empty
cart and a successful 70% draw sets `converted = True`). -/
def pageStep (st : SessionState) (c : PageChoice) : SessionState :=
  let cart1 :=
    match c.product with
    | some (pid, price) =>
      if c.page_type = "product_detail" ∧ c.addDraw = true then
        addToCart st.cart_contents pid price c.addQty
      else st.cart_contents
    | none => st.cart_contents
  let conv1 :=
    if (c.page_type = "checkout" ∨ c.page_type = "confirmation") ∧
        cart1 ≠ [] ∧ c.convertDraw = true then true
    else st.converted
  ⟨cart1, conv1⟩

/-- The whole page loop, starting from an empty cart and
`converted = False`. -/
def sessionFold (pages : List PageChoice) : SessionState :=
  pages.foldl pageStep ⟨[], false⟩

/-- `"converted" if converted else "abandoned" if cart_contents else "browsed"`. -/
def conversion_status (st : SessionState) : String :=
  if st.converted = true then "converted"
  else if st.cart_contents ≠ [] then "abandoned"
  else "browsed"

/-! ### Generation driver loop (claim C7) -/

/-- `MAX_ITERATIONS = (NUM_SESSIONS + NUM_TRANSACTIONS) * 2`. -/
def MAX_ITERATIONS (num_sessions num_transactions : ℕ) : ℕ :=
  (num_sessions + num_transactions) * 2

structure DriverState where
  session_counter : ℕ
  transaction_counter : ℕ
  iteration : ℕ
deriving DecidableEq, Repr

/-- The random outcomes of one driver iteration, abstracted: whether the
generated session converted and its settlement committed, whether the
20% extra-transaction draw fired, and whether the extra basket kept at
least one line item. -/
structure IterChoice where
  sessionTxnCommit : Bool
  extraDraw : Bool
  extraItems : Bool
deriving DecidableEq, Repr

/-- One iteration of the driver loop: a session is generated whenever
the session counter is below target (incrementing it); inside that
branch the transaction counter increments when the session's settlement
committed and the counter is below target; afterwards the independent
path increments the counter when it is (still) below target, the 20%
draw fired and the basket was non-empty. -/
def driverStep (num_sessions num_transactions : ℕ) (c : IterChoice)
    (st : DriverState) : DriverState :=
  let s1 := if st.session_counter < num_sessions then st.session_counter + 1
    else st.session_counter
  let t1 := if st.session_counter < num_sessions ∧ c.sessionTxnCommit = true ∧
      st.transaction_counter < num_transactions then st.transaction_counter + 1
    else st.transaction_counter
  let t2 := if t1 < num_transactions ∧ c.extraDraw = true ∧ c.extraItems = true
    then t1 + 1 else t1
  ⟨s1, t2, st.iteration + 1⟩

/-- The driver `while` loop:
`while (session_counter < NUM_SESSIONS or transaction_counter < NUM_TRANSACTIONS) and iteration < MAX_ITERATIONS`. -/
def driverRun (num_sessions num_transactions : ℕ) (cs : ℕ → IterChoice)
    (st : DriverState) : DriverState :=
  if h : (st.session_counter < num_sessions ∨
      st.transaction_counter < num_transactions) ∧
      st.iteration < MAX_ITERATIONS num_sessions num_transactions then
    driverRun num_sessions num_transactions cs
      (driverStep num_sessions num_transactions (cs st.iteration) st)
  else st
termination_by MAX_ITERATIONS num_sessions num_transactions - st.iteration
decreasing_by
  simp only [driverStep]
  omega

/-! ### Catalog builder (claim C9)

Time is modelled in days as a natural number; the faker provider is an
opaque deterministic function of its seeded draw and of its explicit
datetime bounds — bounds that the source derives from the current
wall-clock time (`datetime.datetime.now()` and faker's `"now"`). -/

def TIMESPAN_DAYS : ℕ := 90

/-- Faker `date_time_between(start_date, end_date)`: some datetime in
`[lo, hi]`, a fixed function of the seeded draw `r`. -/
def date_time_between (r lo hi : ℕ) : ℕ := lo + r % (hi + 1 - lo)

/-- Opaque seeded faker text provider (`company()`, `bs()`, `city()`,
...): a fixed function of the seeded draw. -/
def fakeText (r : ℕ) : String := "w" ++ toString r

structure SubcategoryChoices where
  nameDraw : ℕ
  marginDraw : ℚ
deriving DecidableEq, Repr

structure CategoryChoices where
  nameDraw : ℕ
  subs : List SubcategoryChoices
deriving DecidableEq, Repr

structure Subcategory where
  subcategory_id : String
  name : String
  profit_margin : ℚ
deriving DecidableEq, Repr

structure Category where
  category_id : String
  name : String
  subcategories : List Subcategory
deriving DecidableEq, Repr

/-- Category generation: ids and names from seeded draws only; the
margin is `round(uniform(0.1, 0.4), 2)`.  (`now` is passed but unused:
no category field depends on the wall clock.) -/
def genCategory (cat_id : ℕ) (c : CategoryChoices) (now : ℕ) : Category :=
  ⟨"cat_" ++ toString cat_id, fakeText c.nameDraw,
    c.subs.enum.map (fun e =>
      ⟨"sub_" ++ toString cat_id ++ "_" ++ toString e.1,
        fakeText e.2.nameDraw, round2 e.2.marginDraw⟩)⟩

def genCategories (cs : List CategoryChoices) (now : ℕ) : List Category :=
  cs.enum.map (fun e => genCategory e.1 e.2 now)

structure PricePoint where
  price : ℚ
  date : ℕ
deriving DecidableEq, Repr

structure Product where
  product_id : String
  name : String
  category_id : String
  base_price : ℚ
  current_stock : ℤ
  is_active : Bool
  price_history : List PricePoint
  creation_date : ℕ
deriving DecidableEq, Repr

structure ProductChoices where
  nameDraw : ℕ
  categoryIdx : ℕ
  basePriceDraw : ℚ
  initialDateDraw : ℕ
  changes : List (ℕ × ℚ)
  stockDraw : ℕ
  activeDraw : Bool
deriving DecidableEq, Repr

/-- Product generation.  `product_creation_start = now − TIMESPAN_DAYS*2`;
the initial price point is dated within the first third of the pre-launch
window; each further price change is dated between the previous point and
`now` and jitters the base price; the history is sorted by date; the
current price is the last entry and the creation date the first. -/
def genProduct (prod_id : ℕ) (c : ProductChoices) (now : ℕ) : Product :=
  let product_creation_start := now - TIMESPAN_DAYS * 2
  let base_price := round2 c.basePriceDraw
  let initial_date := date_time_between c.initialDateDraw product_creation_start
    (product_creation_start + TIMESPAN_DAYS / 3)
  let more := (c.changes.foldl
    (fun (st : ℕ × List PricePoint) ch =>
      (date_time_between ch.1 st.1 now,
        st.2 ++ [⟨round2 (base_price * ch.2), date_time_between ch.1 st.1 now⟩]))
    (initial_date, [])).2
  let price_history := List.insertionSort (fun p1 p2 => p1.date ≤ p2.date)
    (⟨base_price, initial_date⟩ :: more)
  ⟨"prod_" ++ toString prod_id, fakeText c.nameDraw,
    "cat_" ++ toString c.categoryIdx,
    (price_history.getLastD ⟨base_price, initial_date⟩).price,
    (10 + c.stockDraw % 991 : ℕ), c.activeDraw, price_history,
    (price_history.headD ⟨base_price, initial_date⟩).date⟩

def genProducts (ps : List ProductChoices) (now : ℕ) : List Product :=
  ps.enum.map (fun e => genProduct e.1 e.2 now)

structure User where
  user_id : String
  city : String
  state : String
  registration_date : ℕ
  last_active : ℕ
deriving DecidableEq, Repr

structure UserChoices where
  cityDraw : ℕ
  stateDraw : ℕ
  regDraw : ℕ
  lastDraw : ℕ
deriving DecidableEq, Repr

/-- User generation: registration between `3×span` and `1×span` days
before now, last-active between registration and now. -/
def genUser (user_id : ℕ) (c : UserChoices) (now : ℕ) : User :=
  let reg := date_time_between c.regDraw (now - TIMESPAN_DAYS * 3)
    (now - TIMESPAN_DAYS)
  ⟨"user_" ++ toString user_id, fakeText c.cityDraw, fakeText c.stateDraw,
    reg, date_time_between c.lastDraw reg now⟩

def genUsers (us : List UserChoices) (now : ℕ) : List User :=
  us.enum.map (fun e => genUser e.1 e.2 now)

/-! ### Ledger lemmas -/

lemma lookupStock_cons (k : ProductId) (v : ℤ) (t : List (ProductId × ℤ))
    (pid : ProductId) :
    lookupStock ⟨(k, v) :: t⟩ pid =
      if k = pid then some v else lookupStock ⟨t⟩ pid := by
  by_cases h : k = pid
  · simp [lookupStock, List.find?_cons_of_pos, h]
  · simp [lookupStock, List.find?_cons_of_neg, h]

lemma lookupStock_set (l : List (ProductId × ℤ)) (pid : ProductId) (q : ℤ)
    (pid2 : ProductId) :
    lookupStock ⟨l.map (fun e => if e.1 = pid then (e.1, e.2 - q) else e)⟩ pid2 =
      if pid2 = pid then (lookupStock ⟨l⟩ pid2).map (fun s => s - q)
      else lookupStock ⟨l⟩ pid2 := by
  induction l with
  | nil => by_cases h : pid2 = pid <;> simp [lookupStock, h]
  | cons e t ih =>
    obtain ⟨k, v⟩ := e
    simp only [List.map_cons]
    by_cases hk : k = pid
    · subst hk
      simp only [if_pos rfl]
      by_cases h2 : pid2 = k
      · subst h2; simp [lookupStock_cons]
      · simp [lookupStock_cons, Ne.symm h2, h2, ih]
    · simp only [if_neg hk]
      by_cases h2 : pid2 = k
      · subst h2; simp [lookupStock_cons, hk]
      · simp [lookupStock_cons, Ne.symm h2, ih]

/-- On success, the targeted stock drops by exactly `quantity` and every
other stock is untouched; on failure the inventory is returned as-is. -/
lemma update_stock_lookup (inv : InventoryManager) (pid : ProductId) (q : ℕ)
    (pid2 : ProductId) :
    lookupStock (update_stock inv pid q).2 pid2 =
      if (update_stock inv pid q).1 = true ∧ pid2 = pid then
        (lookupStock inv pid2).map (fun s => s - (q : ℤ))
      else lookupStock inv pid2 := by
  unfold update_stock
  cases h : lookupStock inv pid with
  | none => simp
  | some s =>
    by_cases hle : (q : ℤ) ≤ s
    · simp only [if_pos hle]
      rw [lookupStock_set inv.products pid (q : ℤ) pid2]
      by_cases h2 : pid2 = pid <;> simp [h2]
    · simp [if_neg hle]

lemma update_stock_of_none {inv : InventoryManager} {pid : ProductId} (q : ℕ)
    (h : lookupStock inv pid = none) : update_stock inv pid q = (false, inv) := by
  unfold update_stock; rw [h]

lemma update_stock_of_lt {inv : InventoryManager} {pid : ProductId} {q : ℕ} {s : ℤ}
    (h : lookupStock inv pid = some s) (hlt : s < (q : ℤ)) :
    update_stock inv pid q = (false, inv) := by
  unfold update_stock; rw [h]; simp [not_le.2 hlt]

lemma update_stock_of_le {inv : InventoryManager} {pid : ProductId} {q : ℕ} {s : ℤ}
    (h : lookupStock inv pid = some s) (hle : (q : ℤ) ≤ s) :
    update_stock inv pid q =
      (true, ⟨inv.products.map (fun e =>
        if e.1 = pid then (e.1, e.2 - (q : ℤ)) else e)⟩) := by
  unfold update_stock; rw [h]; simp [hle]

/-- CLAIM C2 — `update_stock` returns false exactly when the product is
unknown or the requested quantity exceeds its stock, and then mutates
nothing; otherwise it returns true and subtracts exactly the requested
quantity from that product's stock, leaving every other product's stock
unchanged. -/
theorem update_stock_reserve_spec (inv : InventoryManager) (pid : ProductId) (q : ℕ) :
    ((update_stock inv pid q).1 = false ↔
      lookupStock inv pid = none ∨
        ∃ s, lookupStock inv pid = some s ∧ s < (q : ℤ)) ∧
    ((update_stock inv pid q).1 = false → (update_stock inv pid q).2 = inv) ∧
    (∀ s, lookupStock inv pid = some s → (q : ℤ) ≤ s →
      (update_stock inv pid q).1 = true ∧
      lookupStock (update_stock inv pid q).2 pid = some (s - (q : ℤ)) ∧
      ∀ pid2, pid2 ≠ pid →
        lookupStock (update_stock inv pid q).2 pid2 = lookupStock inv pid2) := by
  refine ⟨?_, ?_, ?_⟩
  · cases h : lookupStock inv pid with
    | none => simp [update_stock_of_none q h]
    | some s =>
      by_cases hle : (q : ℤ) ≤ s
      · simp only [update_stock_of_le h hle]
        simp [h]; omega
      · simp only [update_stock_of_lt h (not_le.1 hle)]
        simp [h]; omega
  · intro hf
    cases h : lookupStock inv pid with
    | none => simp [update_stock_of_none q h]
    | some s =>
      by_cases hle : (q : ℤ) ≤ s
      · rw [update_stock_of_le h hle] at hf; simp at hf
      · simp [update_stock_of_lt h (not_le.1 hle)]
  · intro s h hle
    have h1 : (update_stock inv pid q).1 = true := by
      simp [update_stock_of_le h hle]
    refine ⟨h1, ?_, ?_⟩
    · rw [update_stock_lookup inv pid q pid]
      simp [h1, h]
    · intro pid2 hne
      rw [update_stock_lookup inv pid q pid2]
      simp [hne]

/-- Witness for C2 at a concrete inventory: reserving 3 of "A" from
stock 10 succeeds and leaves 7, with "B" untouched. -/
theorem update_stock_reserve_spec_witness :
    (update_stock ⟨[("A", 10), ("B", 3)]⟩ "A" 3).1 = true ∧
    lookupStock (update_stock ⟨[("A", 10), ("B", 3)]⟩ "A" 3).2 "A" = some 7 ∧
    lookupStock (update_stock ⟨[("A", 10), ("B", 3)]⟩ "A" 3).2 "B" = some 3 := by
  obtain ⟨-, -, h3⟩ := update_stock_reserve_spec ⟨[("A", 10), ("B", 3)]⟩ "A" 3
  obtain ⟨ha, hb, hc⟩ := h3 10 (by decide) (by decide)
  exact ⟨ha, by rw [hb]; decide, by rw [hc "B" (by decide)]; decide⟩

lemma update_stock_false_snd {inv : InventoryManager} {pid : ProductId} {q : ℕ}
    (h : (update_stock inv pid q).1 = false) : (update_stock inv pid q).2 = inv := by
  cases hl : lookupStock inv pid with
  | none => simp [update_stock_of_none q hl]
  | some s =>
    by_cases hle : (q : ℤ) ≤ s
    · rw [update_stock_of_le hl hle] at h; simp at h
    · simp [update_stock_of_lt hl (not_le.1 hle)]

/-! ### Settlement-loop lemmas -/

lemma settleLoop_nil (inv : InventoryManager) (acc : List TxnItem) :
    settleLoop inv [] acc = ⟨inv, acc, true⟩ := rfl

lemma settleLoop_cons_zero {c : CartLine} (hq : ¬ 0 < c.quantity)
    (inv : InventoryManager) (rest : List CartLine) (acc : List TxnItem) :
    settleLoop inv (c :: rest) acc = settleLoop inv rest acc := by
  rw [settleLoop, if_neg hq]

lemma settleLoop_cons_true {c : CartLine} {inv inv1 : InventoryManager}
    (hq : 0 < c.quantity)
    (hu : update_stock inv c.product_id c.quantity = (true, inv1))
    (rest : List CartLine) (acc : List TxnItem) :
    settleLoop inv (c :: rest) acc = settleLoop inv1 rest (acc ++ [mkTxnItem c]) := by
  rw [settleLoop, if_pos hq, hu]

lemma settleLoop_cons_false {c : CartLine} {inv inv1 : InventoryManager}
    (hq : 0 < c.quantity)
    (hu : update_stock inv c.product_id c.quantity = (false, inv1))
    (rest : List CartLine) (acc : List TxnItem) :
    settleLoop inv (c :: rest) acc = ⟨inv1, acc, false⟩ := by
  rw [settleLoop, if_pos hq, hu]

/-- The accumulator only prepends: inventory and validity are
independent of it. -/
lemma settleLoop_acc (cart : List CartLine) (inv : InventoryManager)
    (acc : List TxnItem) :
    settleLoop inv cart acc =
      ⟨(settleLoop inv cart []).inv, acc ++ (settleLoop inv cart []).items,
        (settleLoop inv cart []).valid⟩ := by
  induction cart generalizing inv acc with
  | nil => simp [settleLoop_nil]
  | cons c rest ih =>
    by_cases hq : 0 < c.quantity
    · cases hu : update_stock inv c.product_id c.quantity with
      | mk ok inv1 =>
        cases ok
        · rw [settleLoop_cons_false hq hu rest acc,
            settleLoop_cons_false hq hu rest []]
          simp
        · rw [settleLoop_cons_true hq hu rest acc,
            settleLoop_cons_true hq hu rest [],
            ih inv1 (acc ++ [mkTxnItem c]), ih inv1 ([] ++ [mkTxnItem c])]
          simp
    · rw [settleLoop_cons_zero hq inv rest acc, settleLoop_cons_zero hq inv rest [],
        ih inv acc]

/-- When the settlement loop reports `valid = false`, there is a first
failing cart line at index `k`: the lines before it all reserved
successfully, `update_stock` rejects line `k`, and the loop returns the
inventory as it stands after the prefix reservations (nothing is rolled
back). -/
lemma settleLoop_false_prefix (cart : List CartLine) (inv : InventoryManager)
    (h : (settleLoop inv cart []).valid = false) :
    ∃ k, ∃ hk : k < cart.length,
      0 < (cart.get ⟨k, hk⟩).quantity ∧
      (settleLoop inv (cart.take k) []).valid = true ∧
      (update_stock (settleLoop inv (cart.take k) []).inv
        (cart.get ⟨k, hk⟩).product_id (cart.get ⟨k, hk⟩).quantity).1 = false ∧
      (settleLoop inv cart []).inv = (settleLoop inv (cart.take k) []).inv := by
  induction cart generalizing inv with
  | nil => simp [settleLoop_nil] at h
  | cons c rest ih =>
    by_cases hq : 0 < c.quantity
    · cases hu : update_stock inv c.product_id c.quantity with
      | mk ok inv1 =>
        cases ok
        · -- the head line itself fails: k = 0
          have hsnd : inv1 = inv := by
            have h2 := @update_stock_false_snd inv c.product_id c.quantity
              (by rw [hu])
            rw [hu] at h2; exact h2
          refine ⟨0, by simp, hq, by simp [settleLoop_nil], ?_, ?_⟩
          · simpa [settleLoop_nil] using congrArg Prod.fst hu
          · simp only [List.take, settleLoop_nil,
              settleLoop_cons_false hq hu rest []]
            exact hsnd
        · -- the head line succeeds: recurse into the tail
          have hrest : (settleLoop inv1 rest []).valid = false := by
            have hh : (settleLoop inv (c :: rest) []).valid = false := h
            rw [settleLoop_cons_true hq hu rest [],
              settleLoop_acc rest inv1 ([] ++ [mkTxnItem c])] at hh
            exact hh
          obtain ⟨k, hk, h1, h2, h3, h4⟩ := ih inv1 hrest
          refine ⟨k + 1, by simpa using Nat.succ_lt_succ hk, h1, ?_, ?_, ?_⟩
          · show (settleLoop inv (c :: rest.take k) []).valid = true
            rw [settleLoop_cons_true hq hu (rest.take k) [],
              settleLoop_acc (rest.take k) inv1 ([] ++ [mkTxnItem c])]
            exact h2
          · show (update_stock (settleLoop inv (c :: rest.take k) []).inv
              (rest.get ⟨k, hk⟩).product_id (rest.get ⟨k, hk⟩).quantity).1 = false
            rw [settleLoop_cons_true hq hu (rest.take k) [],
              settleLoop_acc (rest.take k) inv1 ([] ++ [mkTxnItem c])]
            exact h3
          · show (settleLoop inv (c :: rest) []).inv =
              (settleLoop inv (c :: rest.take k) []).inv
            rw [settleLoop_cons_true hq hu rest [],
              settleLoop_acc rest inv1 ([] ++ [mkTxnItem c]),
              settleLoop_cons_true hq hu (rest.take k) [],
              settleLoop_acc (rest.take k) inv1 ([] ++ [mkTxnItem c])]
            exact h4
    · -- zero-quantity head line is skipped
      have hrest : (settleLoop inv rest []).valid = false := by
        have hh : (settleLoop inv (c :: rest) []).valid = false := h
        rw [settleLoop_cons_zero hq inv rest []] at hh
        exact hh
      obtain ⟨k, hk, h1, h2, h3, h4⟩ := ih inv hrest
      refine ⟨k + 1, by simpa using Nat.succ_lt_succ hk, h1, ?_, ?_, ?_⟩
      · show (settleLoop inv (c :: rest.take k) []).valid = true
        rw [settleLoop_cons_zero hq inv (rest.take k) []]; exact h2
      · show (update_stock (settleLoop inv (c :: rest.take k) []).inv
          (rest.get ⟨k, hk⟩).product_id (rest.get ⟨k, hk⟩).quantity).1 = false
        rw [settleLoop_cons_zero hq inv (rest.take k) []]; exact h3
      · show (settleLoop inv (c :: rest) []).inv =
          (settleLoop inv (c :: rest.take k) []).inv
        rw [settleLoop_cons_zero hq inv rest [],
          settleLoop_cons_zero hq inv (rest.take k) []]
        exact h4

/-- CLAIM C3 — on the session-linked settlement path, settlement is a
total function (never raises), and when any cart line's reservation
fails no transaction is recorded, while the reservations already made
for the earlier cart lines of the attempt are kept: the inventory
returned is exactly the inventory after the successful prefix
reservations, with no rollback. -/
theorem settle_abort_no_rollback (inv : InventoryManager) (cart : List CartLine)
    (session_id user_id : String) (o : Option (Fin 4))
    (h : (settleLoop inv cart []).valid = false) :
    settleTransaction inv cart session_id user_id o =
      ((settleLoop inv cart []).inv, none) ∧
    ∃ k, ∃ hk : k < cart.length,
      0 < (cart.get ⟨k, hk⟩).quantity ∧
      (settleLoop inv (cart.take k) []).valid = true ∧
      (update_stock (settleLoop inv (cart.take k) []).inv
        (cart.get ⟨k, hk⟩).product_id (cart.get ⟨k, hk⟩).quantity).1 = false ∧
      (settleLoop inv cart []).inv = (settleLoop inv (cart.take k) []).inv := by
  constructor
  · simp [settleTransaction, h]
  · exact settleLoop_false_prefix cart inv h

/-- Witness for C3: a cart whose second line exceeds stock produces no
transaction, yet the first line's reservation (2 of "A") is kept: "A"
ends at 8, not 10. -/
theorem settle_abort_no_rollback_witness :
    settleTransaction ⟨[("A", 10), ("B", 3)]⟩ [⟨"A", 2, 5⟩, ⟨"B", 5, 5⟩]
        "s" "u" none =
      ((settleLoop ⟨[("A", 10), ("B", 3)]⟩ [⟨"A", 2, 5⟩, ⟨"B", 5, 5⟩] []).inv,
        none) ∧
    lookupStock (settleLoop ⟨[("A", 10), ("B", 3)]⟩
      [⟨"A", 2, 5⟩, ⟨"B", 5, 5⟩] []).inv "A" = some 8 :=
  ⟨(settle_abort_no_rollback ⟨[("A", 10), ("B", 3)]⟩
      [⟨"A", 2, 5⟩, ⟨"B", 5, 5⟩] "s" "u" none (by decide)).1,
    by decide⟩

/-- A fully successful settlement loop builds exactly one line item per
positive-quantity cart line, in cart order. -/
lemma settleLoop_valid_items (cart : List CartLine) (inv : InventoryManager)
    (h : (settleLoop inv cart []).valid = true) :
    (settleLoop inv cart []).items =
      (cart.filter (fun c => 0 < c.quantity)).map mkTxnItem := by
  induction cart generalizing inv with
  | nil => simp [settleLoop_nil]
  | cons c rest ih =>
    by_cases hq : 0 < c.quantity
    · cases hu : update_stock inv c.product_id c.quantity with
      | mk ok inv1 =>
        cases ok
        · rw [settleLoop_cons_false hq hu rest []] at h
          simp at h
        · rw [settleLoop_cons_true hq hu rest [],
            settleLoop_acc rest inv1 ([] ++ [mkTxnItem c])] at h ⊢
          simp only [List.filter_cons, decide_eq_true hq, List.map_cons]
          simp [ih inv1 h]
    · rw [settleLoop_cons_zero hq inv rest []] at h ⊢
      have hfc : (fun c : CartLine => decide (0 < c.quantity)) c = false := by
        simpa using hq
      simp only [List.filter_cons, hfc]
      exact ih inv h

/-- CLAIM C10 — a committed session-linked transaction's line items
correspond exactly to the session's final cart contents (the cart lines
with positive quantity, which is what the session records): one item per
line, in cart iteration order, with the same product id, the same
quantity, and the cart line's stored price as unit price. -/
theorem settle_commit_items_match_cart (inv inv1 : InventoryManager)
    (cart : List CartLine) (session_id user_id : String) (o : Option (Fin 4))
    (t : Transaction)
    (h : settleTransaction inv cart session_id user_id o = (inv1, some t)) :
    t.items.map (fun it => (it.product_id, it.quantity, it.unit_price)) =
      (cart.filter (fun c => 0 < c.quantity)).map
        (fun c => (c.product_id, c.quantity, c.price)) := by
  simp only [settleTransaction] at h
  split at h
  case isTrue hcond =>
    simp only [Prod.mk.injEq, Option.some.injEq] at h
    have hitems : t.items = (settleLoop inv cart []).items := by
      rw [← h.2]
    rw [hitems, settleLoop_valid_items cart inv hcond.1, List.map_map]
    rfl
  case isFalse hcond => simp at h

/-- Witness for C10: a two-line cart settles fully and the committed
items project back to exactly the cart lines. -/
theorem settle_commit_items_match_cart_witness :
    List.map (fun it : TxnItem => (it.product_id, it.quantity, it.unit_price))
        [⟨"A", 2, 5, 10⟩, ⟨"B", 3, 7/2, 21/2⟩] =
      (([⟨"A", 2, 5⟩, ⟨"B", 3, 7/2⟩] : List CartLine).filter
          (fun c => 0 < c.quantity)).map
        (fun c => (c.product_id, c.quantity, c.price)) :=
  settle_commit_items_match_cart ⟨[("A", 10), ("B", 3)]⟩ ⟨[("A", 8), ("B", 0)]⟩
    [⟨"A", 2, 5⟩, ⟨"B", 3, 7/2⟩] "s" "u" none
    ⟨some "s", "u", [⟨"A", 2, 5, 10⟩, ⟨"B", 3, 7/2, 21/2⟩], 41/2, 0, 41/2⟩
    (by norm_num +decide [settleTransaction, settleLoop, update_stock, lookupStock,
      mkTxnItem, round2, computeDiscount, List.find?])

/-! ### Independent-path loop lemmas -/

lemma independentLoop_nil (inv : InventoryManager) (acc : List TxnItem) :
    independentLoop inv [] acc = (inv, acc) := rfl

lemma independentLoop_cons_inactive {p : SampledProduct} (hp : p.is_active = false)
    (inv : InventoryManager) (q : ℕ) (rest : List (SampledProduct × ℕ))
    (acc : List TxnItem) :
    independentLoop inv ((p, q) :: rest) acc = independentLoop inv rest acc := by
  rw [independentLoop, if_neg (by simp [hp])]

lemma independentLoop_cons_true {p : SampledProduct} {q : ℕ}
    {inv inv1 : InventoryManager} (hp : p.is_active = true)
    (hu : update_stock inv p.product_id q = (true, inv1))
    (rest : List (SampledProduct × ℕ)) (acc : List TxnItem) :
    independentLoop inv ((p, q) :: rest) acc =
      independentLoop inv1 rest
        (acc ++ [⟨p.product_id, q, p.base_price, round2 ((q : ℚ) * p.base_price)⟩]) := by
  rw [independentLoop, if_pos hp, hu]

lemma independentLoop_cons_false {p : SampledProduct} {q : ℕ}
    {inv inv1 : InventoryManager} (hp : p.is_active = true)
    (hu : update_stock inv p.product_id q = (false, inv1))
    (rest : List (SampledProduct × ℕ)) (acc : List TxnItem) :
    independentLoop inv ((p, q) :: rest) acc = independentLoop inv1 rest acc := by
  rw [independentLoop, if_pos hp, hu]

/-- The independent loop's accumulator only prepends. -/
lemma independentLoop_acc (prods : List (SampledProduct × ℕ))
    (inv : InventoryManager) (acc : List TxnItem) :
    independentLoop inv prods acc =
      ((independentLoop inv prods []).1, acc ++ (independentLoop inv prods []).2) := by
  induction prods generalizing inv acc with
  | nil => simp [independentLoop_nil]
  | cons pq rest ih =>
    obtain ⟨p, q⟩ := pq
    cases hp : p.is_active
    · rw [independentLoop_cons_inactive hp inv q rest acc,
        independentLoop_cons_inactive hp inv q rest [], ih inv acc]
    · cases hu : update_stock inv p.product_id q with
      | mk ok inv1 =>
        cases ok
        · rw [independentLoop_cons_false hp hu rest acc,
            independentLoop_cons_false hp hu rest [], ih inv1 acc]
        · rw [independentLoop_cons_true hp hu rest acc,
            independentLoop_cons_true hp hu rest [],
            ih inv1 (acc ++ [_]), ih inv1 ([] ++ [_])]
          simp

/-- Every line item produced by the settlement loop is either carried in
from the accumulator or is `mkTxnItem` of one of the cart lines. -/
lemma settleLoop_items_mem (cart : List CartLine) (inv : InventoryManager)
    (acc : List TxnItem) (it : TxnItem)
    (h : it ∈ (settleLoop inv cart acc).items) :
    it ∈ acc ∨ ∃ c ∈ cart, it = mkTxnItem c := by
  induction cart generalizing inv acc with
  | nil => rw [settleLoop_nil] at h; exact Or.inl h
  | cons c rest ih =>
    by_cases hq : 0 < c.quantity
    · cases hu : update_stock inv c.product_id c.quantity with
      | mk ok inv1 =>
        cases ok
        · rw [settleLoop_cons_false hq hu rest acc] at h
          exact Or.inl h
        · rw [settleLoop_cons_true hq hu rest acc] at h
          rcases ih inv1 (acc ++ [mkTxnItem c]) h with hacc | ⟨c2, hc2, he⟩
          · rcases List.mem_append.1 hacc with h1 | h1
            · exact Or.inl h1
            · exact Or.inr ⟨c, List.mem_cons_self c rest, by simpa using h1⟩
          · exact Or.inr ⟨c2, List.mem_cons_of_mem c hc2, he⟩
    · rw [settleLoop_cons_zero hq inv rest acc] at h
      rcases ih inv acc h with h1 | ⟨c2, hc2, he⟩
      · exact Or.inl h1
      · exact Or.inr ⟨c2, List.mem_cons_of_mem c hc2, he⟩

/-- Every line item produced by the independent basket loop is either
carried in from the accumulator or built from one of the sampled
products and its quantity draw. -/
lemma independentLoop_items_mem (prods : List (SampledProduct × ℕ))
    (inv : InventoryManager) (acc : List TxnItem) (it : TxnItem)
    (h : it ∈ (independentLoop inv prods acc).2) :
    it ∈ acc ∨ ∃ pq ∈ prods,
      it = ⟨pq.1.product_id, pq.2, pq.1.base_price,
        round2 ((pq.2 : ℚ) * pq.1.base_price)⟩ := by
  induction prods generalizing inv acc with
  | nil => rw [independentLoop_nil] at h; exact Or.inl h
  | cons pq rest ih =>
    obtain ⟨p, q⟩ := pq
    cases hp : p.is_active
    · rw [independentLoop_cons_inactive hp inv q rest acc] at h
      rcases ih inv acc h with h1 | ⟨pq2, hpq2, he⟩
      · exact Or.inl h1
      · exact Or.inr ⟨pq2, List.mem_cons_of_mem _ hpq2, he⟩
    · cases hu : update_stock inv p.product_id q with
      | mk ok inv1 =>
        cases ok
        · rw [independentLoop_cons_false hp hu rest acc] at h
          rcases ih inv1 acc h with h1 | ⟨pq2, hpq2, he⟩
          · exact Or.inl h1
          · exact Or.inr ⟨pq2, List.mem_cons_of_mem _ hpq2, he⟩
        · rw [independentLoop_cons_true hp hu rest acc] at h
          rcases ih inv1 _ h with h1 | ⟨pq2, hpq2, he⟩
          · rcases List.mem_append.1 h1 with h2 | h2
            · exact Or.inl h2
            · exact Or.inr ⟨(p, q), List.mem_cons_self _ rest, by simpa using h2⟩
          · exact Or.inr ⟨pq2, List.mem_cons_of_mem _ hpq2, he⟩

/-- A basket of only inactive products leaves the loop a no-op. -/
lemma independentLoop_all_inactive (prods : List (SampledProduct × ℕ))
    (inv : InventoryManager) (h : ∀ pq ∈ prods, pq.1.is_active = false) :
    independentLoop inv prods [] = (inv, []) := by
  induction prods generalizing inv with
  | nil => rfl
  | cons pq rest ih =>
    obtain ⟨p, q⟩ := pq
    rw [independentLoop_cons_inactive (h (p, q) (List.mem_cons_self _ rest)) inv q rest []]
    exact ih inv (fun pq2 hpq2 => h pq2 (List.mem_cons_of_mem _ hpq2))

/-- Unfolding equation for `independentTransaction` (definitional). -/
lemma independentTransaction_eq (inv : InventoryManager)
    (prods : List (SampledProduct × ℕ)) (user_id : String) (o : Option (Fin 4)) :
    independentTransaction inv prods user_id o =
      if (independentLoop inv prods []).2 ≠ [] then
        ((independentLoop inv prods []).1,
          some ⟨none, user_id, (independentLoop inv prods []).2,
            ((independentLoop inv prods []).2.map (fun it => it.subtotal)).sum,
            computeDiscount o
              (((independentLoop inv prods []).2.map (fun it => it.subtotal)).sum),
            round2 ((((independentLoop inv prods []).2.map
                (fun it => it.subtotal)).sum) -
              computeDiscount o
                (((independentLoop inv prods []).2.map (fun it => it.subtotal)).sum))⟩)
      else ((independentLoop inv prods []).1, none) := rfl

/-- Unfolding equation for `settleTransaction` (definitional). -/
lemma settleTransaction_eq (inv : InventoryManager) (cart : List CartLine)
    (session_id user_id : String) (o : Option (Fin 4)) :
    settleTransaction inv cart session_id user_id o =
      if (settleLoop inv cart []).valid = true ∧ (settleLoop inv cart []).items ≠ [] then
        ((settleLoop inv cart []).inv,
          some ⟨some session_id, user_id, (settleLoop inv cart []).items,
            ((settleLoop inv cart []).items.map (fun it => it.subtotal)).sum,
            computeDiscount o
              (((settleLoop inv cart []).items.map (fun it => it.subtotal)).sum),
            round2 ((((settleLoop inv cart []).items.map
                (fun it => it.subtotal)).sum) -
              computeDiscount o
                (((settleLoop inv cart []).items.map (fun it => it.subtotal)).sum))⟩)
      else ((settleLoop inv cart []).inv, none) := rfl

/-! ### Money arithmetic -/

lemma round_q_mono {x y : ℚ} (h : x ≤ y) : round x ≤ round y := by
  rw [round_eq, round_eq]
  exact Int.floor_mono (by linarith)

lemma round2_mono {x y : ℚ} (h : x ≤ y) : round2 x ≤ round2 y := by
  unfold round2
  have h2 : round (100 * x) ≤ round (100 * y) := round_q_mono (by linarith)
  have h3 : ((round (100 * x) : ℤ) : ℚ) ≤ ((round (100 * y) : ℤ) : ℚ) := by
    exact_mod_cast h2
  linarith

lemma round2_nonneg {x : ℚ} (h : 0 ≤ x) : 0 ≤ round2 x := by
  have h1 : round2 0 ≤ round2 x := round2_mono h
  have h0 : round2 0 = 0 := by unfold round2; simp
  linarith

/-- `round2` of a nonnegative value is a nonnegative integer number of
hundredths. -/
lemma round2_hundredths {x : ℚ} (h : 0 ≤ x) :
    ∃ n : ℤ, 0 ≤ n ∧ round2 x = (n : ℚ) / 100 := by
  refine ⟨round (100 * x), ?_, rfl⟩
  have h0 : round (0 : ℚ) ≤ round (100 * x) := round_q_mono (by linarith)
  simpa using h0

lemma sum_subtotals_hundredths (l : List TxnItem)
    (h : ∀ it ∈ l, ∃ n : ℤ, 0 ≤ n ∧ it.subtotal = (n : ℚ) / 100) :
    ∃ N : ℤ, 0 ≤ N ∧ (l.map (fun it => it.subtotal)).sum = (N : ℚ) / 100 := by
  induction l with
  | nil => exact ⟨0, le_refl 0, by simp⟩
  | cons a t ih =>
    obtain ⟨n, hn, ha⟩ := h a (List.mem_cons_self a t)
    obtain ⟨N, hN, hs⟩ := ih (fun it hit => h it (List.mem_cons_of_mem a hit))
    refine ⟨n + N, by omega, ?_⟩
    rw [List.map_cons, List.sum_cons, ha, hs]
    push_cast
    ring

/-- The discount computed on a subtotal that is a nonnegative number of
hundredths is itself nonnegative and never exceeds the subtotal (the
rates are all ≤ 20%). -/
lemma computeDiscount_le (o : Option (Fin 4)) {N : ℤ} (hN : 0 ≤ N) :
    0 ≤ computeDiscount o ((N : ℚ) / 100) ∧
      computeDiscount o ((N : ℚ) / 100) ≤ (N : ℚ) / 100 := by
  have hNq : (0 : ℚ) ≤ (N : ℚ) := by exact_mod_cast hN
  cases o with
  | none =>
    constructor
    · simp [computeDiscount]
    · simp only [computeDiscount]; positivity
  | some i =>
    have hr1 : 0 < discountRates.get i := by fin_cases i <;> norm_num [discountRates]
    have hr2 : discountRates.get i ≤ 1/5 := by fin_cases i <;> norm_num [discountRates]
    constructor
    · exact round2_nonneg (by positivity)
    · show round2 ((N : ℚ) / 100 * discountRates.get i) ≤ (N : ℚ) / 100
      unfold round2
      have harg : (100 : ℚ) * ((N : ℚ) / 100 * discountRates.get i) =
          (N : ℚ) * discountRates.get i := by ring
      rw [harg]
      have hmul : (N : ℚ) * discountRates.get i ≤ (N : ℚ) * (1/5) :=
        mul_le_mul_of_nonneg_left hr2 hNq
      have hle : round ((N : ℚ) * discountRates.get i) ≤ N := by
        rw [round_eq]
        have hlt : ((N : ℚ) * discountRates.get i + 1/2) < ((N + 1 : ℤ) : ℚ) := by
          push_cast
          linarith
        have := Int.floor_lt.2 hlt
        omega
      have hcast : ((round ((N : ℚ) * discountRates.get i) : ℤ) : ℚ) ≤ (N : ℚ) := by
        exact_mod_cast hle
      linarith

/-- Core money facts about a built transaction: given every line item is
of the shape the loops construct (rounded quantity×price with a
nonnegative price), each item's subtotal is the 2-decimal rounding of
quantity × unit price, and subtotal − discount stays nonnegative after
rounding. -/
lemma money_core (items : List TxnItem) (o : Option (Fin 4))
    (hit : ∀ it ∈ items, ∃ q : ℕ, ∃ p : ℚ, 0 ≤ p ∧
      it.quantity = q ∧ it.unit_price = p ∧ it.subtotal = round2 ((q : ℚ) * p)) :
    (∀ it ∈ items, it.subtotal = round2 ((it.quantity : ℚ) * it.unit_price)) ∧
    0 ≤ round2 ((items.map (fun it => it.subtotal)).sum -
      computeDiscount o ((items.map (fun it => it.subtotal)).sum)) := by
  constructor
  · intro it hmem
    obtain ⟨q, p, -, hq, hp, hs⟩ := hit it hmem
    rw [hs, hq, hp]
  · obtain ⟨N, hN, hsum⟩ := sum_subtotals_hundredths items (fun it hmem => by
      obtain ⟨q, p, hp0, -, -, hs⟩ := hit it hmem
      obtain ⟨n, hn, he⟩ := round2_hundredths
        (x := (q : ℚ) * p) (by positivity)
      exact ⟨n, hn, by rw [hs, he]⟩)
    rw [hsum]
    obtain ⟨hd0, hdle⟩ := computeDiscount_le o hN
    exact round2_nonneg (by linarith)

/-- CLAIM C6 — the independent transaction path skips inactive products
and failed reservations without aborting the basket (the loop is
compositional: a prefix's outcome never truncates the suffix's
processing), emits a transaction — with no session linkage — exactly
when at least one line item survived, and in particular a basket whose
sampled products are all inactive yields no items and no transaction. -/
theorem independent_txn_skip_spec (inv : InventoryManager)
    (prods : List (SampledProduct × ℕ)) (user_id : String) (o : Option (Fin 4)) :
    (∀ xs ys : List (SampledProduct × ℕ), ∀ inv0 : InventoryManager,
      independentLoop inv0 (xs ++ ys) [] =
        ((independentLoop (independentLoop inv0 xs []).1 ys []).1,
          (independentLoop inv0 xs []).2 ++
            (independentLoop (independentLoop inv0 xs []).1 ys []).2)) ∧
    ((∃ t, (independentTransaction inv prods user_id o).2 = some t) ↔
      (independentLoop inv prods []).2 ≠ []) ∧
    (∀ t, (independentTransaction inv prods user_id o).2 = some t →
      t.session_id = none) ∧
    ((∀ pq ∈ prods, pq.1.is_active = false) →
      independentTransaction inv prods user_id o = (inv, none)) := by
  refine ⟨?_, ?_, ?_, ?_⟩
  · intro xs
    induction xs with
    | nil => intro ys inv0; simp [independentLoop_nil]
    | cons pq rest ih =>
      intro ys inv0
      obtain ⟨p, q⟩ := pq
      cases hp : p.is_active
      · rw [List.cons_append, independentLoop_cons_inactive hp inv0 q (rest ++ ys) [],
          independentLoop_cons_inactive hp inv0 q rest []]
        exact ih ys inv0
      · cases hu : update_stock inv0 p.product_id q with
        | mk ok inv1 =>
          cases ok
          · rw [List.cons_append, independentLoop_cons_false hp hu (rest ++ ys) [],
              independentLoop_cons_false hp hu rest []]
            exact ih ys inv1
          · rw [List.cons_append, independentLoop_cons_true hp hu (rest ++ ys) [],
              independentLoop_cons_true hp hu rest [],
              independentLoop_acc (rest ++ ys) inv1 ([] ++ [_]),
              independentLoop_acc rest inv1 ([] ++ [_]), ih ys inv1]
            simp
  · rw [independentTransaction_eq]
    by_cases hne : (independentLoop inv prods []).2 ≠ []
    · simp only [if_pos hne]
      exact ⟨fun _ => hne, fun _ => ⟨_, rfl⟩⟩
    · simp only [if_neg hne]
      simp only [ne_eq, not_not] at hne
      simp [hne]
  · intro t ht
    rw [independentTransaction_eq] at ht
    by_cases hne : (independentLoop inv prods []).2 ≠ []
    · rw [if_pos hne] at ht
      simp only [Option.some.injEq] at ht
      rw [← ht]
    · rw [if_neg hne] at ht
      simp at ht
  · intro hall
    rw [independentTransaction_eq, independentLoop_all_inactive prods inv hall]
    simp

/-- CLAIM C5 — every recorded transaction, on either path, satisfies:
total = round2(subtotal − discount); the discount is 0 or the 2-decimal
rounding of subtotal times one of the four rates {0.05, 0.1, 0.15, 0.2};
each line item's subtotal is round2(quantity × unit price); and, the
input prices being nonnegative (catalog prices always are), total ≥ 0. -/
theorem txn_money_invariant :
    (∀ (inv inv1 : InventoryManager) (cart : List CartLine)
        (session_id user_id : String) (o : Option (Fin 4)) (t : Transaction),
      settleTransaction inv cart session_id user_id o = (inv1, some t) →
      (∀ c ∈ cart, 0 ≤ c.price) →
      t.total = round2 (t.subtotal - t.discount) ∧
      (t.discount = 0 ∨
        ∃ i : Fin 4, t.discount = round2 (t.subtotal * discountRates.get i)) ∧
      (∀ it ∈ t.items, it.subtotal = round2 ((it.quantity : ℚ) * it.unit_price)) ∧
      0 ≤ t.total) ∧
    (∀ (inv inv1 : InventoryManager) (prods : List (SampledProduct × ℕ))
        (user_id : String) (o : Option (Fin 4)) (t : Transaction),
      independentTransaction inv prods user_id o = (inv1, some t) →
      (∀ pq ∈ prods, 0 ≤ pq.1.base_price) →
      t.total = round2 (t.subtotal - t.discount) ∧
      (t.discount = 0 ∨
        ∃ i : Fin 4, t.discount = round2 (t.subtotal * discountRates.get i)) ∧
      (∀ it ∈ t.items, it.subtotal = round2 ((it.quantity : ℚ) * it.unit_price)) ∧
      0 ≤ t.total) := by
  constructor
  · intro inv inv1 cart session_id user_id o t h hp
    rw [settleTransaction_eq] at h
    by_cases hc : (settleLoop inv cart []).valid = true ∧
        (settleLoop inv cart []).items ≠ []
    · rw [if_pos hc] at h
      simp only [Prod.mk.injEq, Option.some.injEq] at h
      obtain ⟨-, ht⟩ := h
      subst ht
      have hit : ∀ it ∈ (settleLoop inv cart []).items, ∃ q : ℕ, ∃ p : ℚ,
          0 ≤ p ∧ it.quantity = q ∧ it.unit_price = p ∧
          it.subtotal = round2 ((q : ℚ) * p) := by
        intro it hmem
        rcases settleLoop_items_mem cart inv [] it hmem with h0 | ⟨c, hcmem, he⟩
        · simp at h0
        · exact ⟨c.quantity, c.price, hp c hcmem,
            by rw [he]; rfl, by rw [he]; rfl, by rw [he]; rfl⟩
      obtain ⟨h1, h2⟩ := money_core _ o hit
      refine ⟨rfl, ?_, h1, h2⟩
      cases o with
      | none => exact Or.inl rfl
      | some i => exact Or.inr ⟨i, rfl⟩
    · rw [if_neg hc] at h
      simp at h
  · intro inv inv1 prods user_id o t h hp
    rw [independentTransaction_eq] at h
    by_cases hc : (independentLoop inv prods []).2 ≠ []
    · rw [if_pos hc] at h
      simp only [Prod.mk.injEq, Option.some.injEq] at h
      obtain ⟨-, ht⟩ := h
      subst ht
      have hit : ∀ it ∈ (independentLoop inv prods []).2, ∃ q : ℕ, ∃ p : ℚ,
          0 ≤ p ∧ it.quantity = q ∧ it.unit_price = p ∧
          it.subtotal = round2 ((q : ℚ) * p) := by
        intro it hmem
        rcases independentLoop_items_mem prods inv [] it hmem with h0 | ⟨pq, hpqmem, he⟩
        · simp at h0
        · exact ⟨pq.2, pq.1.base_price, hp pq hpqmem,
            by rw [he], by rw [he], by rw [he]⟩
      obtain ⟨h1, h2⟩ := money_core _ o hit
      refine ⟨rfl, ?_, h1, h2⟩
      cases o with
      | none => exact Or.inl rfl
      | some i => exact Or.inr ⟨i, rfl⟩
    · rw [if_neg hc] at h
      simp at h

/-- Witness for C5 at a concrete committed transaction (subtotal 41/2,
no discount). -/
theorem txn_money_invariant_witness :
    (41/2 : ℚ) = round2 (41/2 - 0) ∧ (0 : ℚ) ≤ (41/2 : ℚ) := by
  have h := txn_money_invariant.1 ⟨[("A", 10), ("B", 3)]⟩ ⟨[("A", 8), ("B", 0)]⟩
    [⟨"A", 2, 5⟩, ⟨"B", 3, 7/2⟩] "s" "u" none
    ⟨some "s", "u", [⟨"A", 2, 5, 10⟩, ⟨"B", 3, 7/2, 21/2⟩], 41/2, 0, 41/2⟩
    (by norm_num +decide [settleTransaction, settleLoop, update_stock, lookupStock,
      mkTxnItem, round2, computeDiscount, List.find?])
    (by intro c hc; fin_cases hc <;> norm_num)
  exact ⟨h.1, h.2.2.2⟩

/-- Witness for C6: a basket of three inactive products produces no
transaction and leaves the inventory untouched. -/
theorem independent_txn_skip_spec_witness :
    independentTransaction ⟨[("A", 5)]⟩
        [(⟨"A", 3, false⟩, 2), (⟨"B", 1, false⟩, 1), (⟨"C", 2, false⟩, 3)]
        "u" none = (⟨[("A", 5)]⟩, none) :=
  (independent_txn_skip_spec ⟨[("A", 5)]⟩
      [(⟨"A", 3, false⟩, 2), (⟨"B", 1, false⟩, 1), (⟨"C", 2, false⟩, 3)]
      "u" none).2.2.2 (by decide)

/-! ### Page-view timestamp facts (claim C4) -/

/-- CLAIM C4 — with 1 ≤ num_pages ≤ 15, the i-th page view's timestamp
is session start + i × ⌊duration / num_pages⌋; the timestamps are
non-decreasing and all lie within [start, start + duration]. -/
theorem page_view_timestamps_spec (s d n : ℕ) (h1 : 1 ≤ n) (h2 : n ≤ 15) :
    (pageTimestamps s d n).length = n ∧
    (∀ i, ∀ hi : i < (pageTimestamps s d n).length,
      (pageTimestamps s d n).get ⟨i, hi⟩ = s + i * (d / n)) ∧
    (pageTimestamps s d n).Pairwise (· ≤ ·) ∧
    (∀ t ∈ pageTimestamps s d n, s ≤ t ∧ t ≤ s + d) := by
  have hmax : max n 1 = n := max_eq_left h1
  refine ⟨by simp [pageTimestamps], ?_, ?_, ?_⟩
  · intro i hi
    simp [pageTimestamps, pageTimestamp, hmax]
  · unfold pageTimestamps
    refine List.pairwise_map.2 ((List.pairwise_lt_range n).imp ?_)
    intro a b hab
    unfold pageTimestamp
    exact Nat.add_le_add_left (Nat.mul_le_mul_right _ (le_of_lt hab)) s
  · intro t ht
    simp only [pageTimestamps, List.mem_map, List.mem_range] at ht
    obtain ⟨i, hi, rfl⟩ := ht
    constructor
    · exact Nat.le_add_right s _
    · unfold pageTimestamp
      rw [hmax]
      have hq : d / n * n ≤ d := Nat.div_mul_le_self d n
      have hle : i * (d / n) ≤ (n - 1) * (d / n) :=
        Nat.mul_le_mul_right _ (by omega)
      have heq : (n - 1) * (d / n) + d / n = n * (d / n) := by
        calc (n - 1) * (d / n) + d / n = ((n - 1) + 1) * (d / n) := by
              rw [Nat.add_mul, Nat.one_mul]
          _ = n * (d / n) := by rw [Nat.sub_add_cancel h1]
      have h6 : n * (d / n) ≤ d := by rw [Nat.mul_comm]; exact hq
      have h7 : i * (d / n) ≤ d := by
        have h8 : (n - 1) * (d / n) ≤ n * (d / n) := Nat.le.intro heq
        calc i * (d / n) ≤ (n - 1) * (d / n) := hle
          _ ≤ n * (d / n) := h8
          _ ≤ d := h6
      omega

/-- Witness for C4 at a 4-page, 60-second session starting at 100. -/
theorem page_view_timestamps_spec_witness :
    (pageTimestamps 100 60 4).get ⟨2, by decide⟩ = 100 + 2 * (60 / 4) :=
  (page_view_timestamps_spec 100 60 4 (by decide) (by decide)).2.1 2 (by decide)

/-! ### Conversion-flag facts (claim C8) -/

lemma conv_if_aux (b : Bool) (P : Prop) [Decidable P] :
    (if P then true else b) = true ↔ (P ∨ b = true) := by
  split <;> simp_all

/-- The flag after one page is set exactly by the qualifying condition
(checkout/confirmation page, non-empty post-mutation cart, successful
draw) or carried over. -/
lemma pageStep_converted_iff (st : SessionState) (c : PageChoice) :
    (pageStep st c).converted = true ↔
      (((c.page_type = "checkout" ∨ c.page_type = "confirmation") ∧
        (pageStep st c).cart_contents ≠ [] ∧ c.convertDraw = true) ∨
        st.converted = true) :=
  conv_if_aux st.converted _

lemma pageStep_converted_true {st : SessionState} (h : st.converted = true)
    (c : PageChoice) : (pageStep st c).converted = true :=
  (pageStep_converted_iff st c).2 (Or.inr h)

lemma foldl_converted_mono (l : List PageChoice) (st : SessionState)
    (h : st.converted = true) : (List.foldl pageStep st l).converted = true := by
  induction l generalizing st with
  | nil => exact h
  | cons c rest ih => exact ih (pageStep st c) (pageStep_converted_true h c)

/-- If a page-loop run ends converted, either it started converted or
some page was a checkout/confirmation visited with a non-empty cart and
a successful draw. -/
lemma foldl_converted_origin (pages : List PageChoice) (st : SessionState)
    (h : (List.foldl pageStep st pages).converted = true) :
    st.converted = true ∨
    ∃ i, ∃ hi : i < pages.length,
      ((pages.get ⟨i, hi⟩).page_type = "checkout" ∨
        (pages.get ⟨i, hi⟩).page_type = "confirmation") ∧
      (List.foldl pageStep st (pages.take (i + 1))).cart_contents ≠ [] ∧
      (pages.get ⟨i, hi⟩).convertDraw = true := by
  induction pages generalizing st with
  | nil => exact Or.inl h
  | cons c rest ih =>
    rcases ih (pageStep st c) h with h1 | ⟨i, hi, hq1, hq2, hq3⟩
    · by_cases h0 : st.converted = true
      · exact Or.inl h0
      · rcases (pageStep_converted_iff st c).1 h1 with hP | hP
        · exact Or.inr ⟨0, by simp, hP.1, hP.2.1, hP.2.2⟩
        · exact absurd hP h0
    · exact Or.inr ⟨i + 1, by simpa using Nat.succ_lt_succ hi, hq1, hq2, hq3⟩

/-- CLAIM C8 — a session's conversion status is "converted" only if some
page view of type checkout or confirmation was reached while the
(post-mutation) cart was non-empty and the 70% commit draw succeeded;
and the converted flag is monotone: once true after some prefix of the
pages, it stays true for every longer prefix. -/
theorem conversion_only_if_checkout (pages : List PageChoice) :
    (conversion_status (sessionFold pages) = "converted" →
      ∃ i, ∃ hi : i < pages.length,
        ((pages.get ⟨i, hi⟩).page_type = "checkout" ∨
          (pages.get ⟨i, hi⟩).page_type = "confirmation") ∧
        (sessionFold (pages.take (i + 1))).cart_contents ≠ [] ∧
        (pages.get ⟨i, hi⟩).convertDraw = true) ∧
    (∀ i j, i ≤ j →
      (sessionFold (pages.take i)).converted = true →
      (sessionFold (pages.take j)).converted = true) := by
  constructor
  · intro hst
    have hconv : (sessionFold pages).converted = true := by
      by_contra hc
      unfold conversion_status at hst
      rw [if_neg hc] at hst
      split at hst <;> simp at hst
    rcases foldl_converted_origin pages ⟨[], false⟩ hconv with h0 | hex
    · simp at h0
    · exact hex
  · intro i j hij hi
    have h1 : (pages.take j).take i = pages.take i := by
      rw [List.take_take, min_eq_left hij]
    have h2 : pages.take j = pages.take i ++ (pages.take j).drop i := by
      conv_lhs => rw [← List.take_append_drop i (pages.take j)]
      rw [h1]
    unfold sessionFold
    rw [h2, List.foldl_append]
    exact foldl_converted_mono _ _ hi

/-- Witness for C8: a product-detail page that fills the cart followed
by a checkout page with a successful draw converts the session, and the
origin of the flag is exhibited by the theorem. -/
theorem conversion_only_if_checkout_witness :
    (∃ i, ∃ hi : i <
        ([⟨"product_detail", some ("A", 5), true, 2, false⟩,
          ⟨"checkout", none, false, 0, true⟩] : List PageChoice).length,
      ((([⟨"product_detail", some ("A", 5), true, 2, false⟩,
          ⟨"checkout", none, false, 0, true⟩] : List PageChoice).get
            ⟨i, hi⟩).page_type = "checkout" ∨
        (([⟨"product_detail", some ("A", 5), true, 2, false⟩,
          ⟨"checkout", none, false, 0, true⟩] : List PageChoice).get
            ⟨i, hi⟩).page_type = "confirmation") ∧
      (sessionFold (([⟨"product_detail", some ("A", 5), true, 2, false⟩,
          ⟨"checkout", none, false, 0, true⟩] : List PageChoice).take
            (i + 1))).cart_contents ≠ [] ∧
      (([⟨"product_detail", some ("A", 5), true, 2, false⟩,
          ⟨"checkout", none, false, 0, true⟩] : List PageChoice).get
            ⟨i, hi⟩).convertDraw = true) :=
  (conversion_only_if_checkout
    [⟨"product_detail", some ("A", 5), true, 2, false⟩,
      ⟨"checkout", none, false, 0, true⟩]).1 (by decide)

/-! ### Driver-loop facts (claim C7) -/

lemma driverStep_iteration (num_sessions num_transactions : ℕ) (c : IterChoice)
    (st : DriverState) :
    (driverStep num_sessions num_transactions c st).iteration = st.iteration + 1 :=
  rfl

lemma driverStep_session_le {num_sessions : ℕ} (num_transactions : ℕ)
    (c : IterChoice) {st : DriverState} (h : st.session_counter ≤ num_sessions) :
    (driverStep num_sessions num_transactions c st).session_counter ≤ num_sessions := by
  unfold driverStep
  dsimp only
  split <;> omega

lemma driverStep_txn_le (num_sessions : ℕ) {num_transactions : ℕ}
    (c : IterChoice) {st : DriverState}
    (h : st.transaction_counter ≤ num_transactions) :
    (driverStep num_sessions num_transactions c st).transaction_counter ≤
      num_transactions := by
  unfold driverStep
  dsimp only
  split_ifs <;> omega

/-- Fueled invariant for the driver loop: counters stay at or below
their targets and the iteration count stays at or below the ceiling. -/
lemma driverRun_props (num_sessions num_transactions : ℕ) (cs : ℕ → IterChoice) :
    ∀ fuel st, MAX_ITERATIONS num_sessions num_transactions - st.iteration ≤ fuel →
      st.session_counter ≤ num_sessions →
      st.transaction_counter ≤ num_transactions →
      st.iteration ≤ MAX_ITERATIONS num_sessions num_transactions →
      (driverRun num_sessions num_transactions cs st).session_counter ≤ num_sessions ∧
      (driverRun num_sessions num_transactions cs st).transaction_counter ≤
        num_transactions ∧
      (driverRun num_sessions num_transactions cs st).iteration ≤
        MAX_ITERATIONS num_sessions num_transactions := by
  intro fuel
  induction fuel with
  | zero =>
    intro st hfuel hs ht hit
    rw [driverRun, dif_neg (fun hcond => by omega)]
    exact ⟨hs, ht, hit⟩
  | succ n ih =>
    intro st hfuel hs ht hit
    rw [driverRun]
    by_cases hcond : (st.session_counter < num_sessions ∨
        st.transaction_counter < num_transactions) ∧
        st.iteration < MAX_ITERATIONS num_sessions num_transactions
    · rw [dif_pos hcond]
      exact ih (driverStep num_sessions num_transactions (cs st.iteration) st)
        (by rw [driverStep_iteration]; omega)
        (driverStep_session_le num_transactions _ hs)
        (driverStep_txn_le num_sessions _ ht)
        (by rw [driverStep_iteration]; omega)
    · rw [dif_neg hcond]
      exact ⟨hs, ht, hit⟩

/-- CLAIM C7 — starting from zeroed counters the driver loop (a total
function, hence terminating) executes at most
`MAX_ITERATIONS = (sessions target + transactions target) × 2` iterations,
never produces more sessions than the session target nor more
transactions than the transaction target, and exits immediately once
both counters have reached their targets. -/
theorem driver_loop_bounds (num_sessions num_transactions : ℕ)
    (cs : ℕ → IterChoice) :
    (driverRun num_sessions num_transactions cs ⟨0, 0, 0⟩).session_counter ≤
      num_sessions ∧
    (driverRun num_sessions num_transactions cs ⟨0, 0, 0⟩).transaction_counter ≤
      num_transactions ∧
    (driverRun num_sessions num_transactions cs ⟨0, 0, 0⟩).iteration ≤
      MAX_ITERATIONS num_sessions num_transactions ∧
    (∀ st : DriverState, num_sessions ≤ st.session_counter →
      num_transactions ≤ st.transaction_counter →
      driverRun num_sessions num_transactions cs st = st) := by
  have h := driverRun_props num_sessions num_transactions cs
    (MAX_ITERATIONS num_sessions num_transactions) ⟨0, 0, 0⟩
    (by omega) (Nat.zero_le _) (Nat.zero_le _) (Nat.zero_le _)
  refine ⟨h.1, h.2.1, h.2.2, ?_⟩
  intro st hs ht
  rw [driverRun, dif_neg]
  intro hcond
  rcases hcond.1 with h1 | h1 <;> omega

/-- Witness for C7: with both counters already past their targets the
loop exits immediately. -/
theorem driver_loop_bounds_witness :
    driverRun 2 1 (fun _ => ⟨true, true, true⟩) ⟨5, 7, 0⟩ = ⟨5, 7, 0⟩ :=
  (driver_loop_bounds 2 1 (fun _ => ⟨true, true, true⟩)).2.2.2 ⟨5, 7, 0⟩
    (by decide) (by decide)

/-! ### Catalog determinism (claim C9) -/

/-- COUNTEREXAMPLE to C9 as stated — with identical seeded draws but two
different run times ("now"), the generated product collection differs
(the creation dates are derived from `datetime.now() − 2×TIMESPAN` and
faker's `"now"`-bounded draws), and so does the user collection (the
registration window is `[now − 3×span, now − span]`).  Hence two runs
with the same seed and configuration are not byte-identical unless they
also share the same wall-clock time. -/
theorem seed_determinism_counterexample :
    (genProducts [⟨0, 0, 100, 0, [], 0, true⟩] 1000).map
        (fun p => p.creation_date) ≠
      (genProducts [⟨0, 0, 100, 0, [], 0, true⟩] 2000).map
        (fun p => p.creation_date) ∧
    (genUsers [⟨0, 0, 0, 0⟩] 1000).map (fun u => u.registration_date) ≠
      (genUsers [⟨0, 0, 0, 0⟩] 2000).map (fun u => u.registration_date) := by
  constructor <;> decide

/-- CLAIM C9 (amended) — with the same seeded draws the category
collection is byte-identical across runs regardless of the run time, and
the product and user collections are byte-identical whenever the two
runs additionally share the same wall-clock time. -/
theorem seed_determinism_amended (cs : List CategoryChoices)
    (ps : List ProductChoices) (us : List UserChoices) (now1 now2 : ℕ) :
    genCategories cs now1 = genCategories cs now2 ∧
    (now1 = now2 →
      genProducts ps now1 = genProducts ps now2 ∧
      genUsers us now1 = genUsers us now2) := by
  constructor
  · rfl
  · rintro rfl
    exact ⟨rfl, rfl⟩

/-- Witness for C9 (amended): categories agree across different run
times; users agree at equal run times. -/
theorem seed_determinism_amended_witness :
    genCategories [⟨3, [⟨4, 1/4⟩]⟩] 50 = genCategories [⟨3, [⟨4, 1/4⟩]⟩] 60 ∧
    genUsers [⟨1, 2, 3, 4⟩] 1000 = genUsers [⟨1, 2, 3, 4⟩] 1000 :=
  ⟨(seed_determinism_amended [⟨3, [⟨4, 1/4⟩]⟩] [] [] 50 60).1,
    ((seed_determinism_amended [] [] [⟨1, 2, 3, 4⟩] 1000 1000).2 rfl).2⟩

/-! ### Stock accounting over a run (claim C1) -/

lemma update_stock_true_iff {inv : InventoryManager} {pid : ProductId} {q : ℕ} :
    (update_stock inv pid q).1 = true ↔
      ∃ s, lookupStock inv pid = some s ∧ (q : ℤ) ≤ s := by
  cases h : lookupStock inv pid with
  | none => simp [update_stock_of_none q h]
  | some s =>
    by_cases hle : (q : ℤ) ≤ s
    · simp [update_stock_of_le h hle, hle]
    · simp [update_stock_of_lt h (not_le.1 hle), hle]

lemma update_stock_nonneg (inv : InventoryManager) (pid2 : ProductId) (q : ℕ)
    (pid : ProductId) (h : ∀ s, lookupStock inv pid = some s → 0 ≤ s) :
    ∀ s, lookupStock (update_stock inv pid2 q).2 pid = some s → 0 ≤ s := by
  intro s hs
  rw [update_stock_lookup inv pid2 q pid] at hs
  by_cases hc : (update_stock inv pid2 q).1 = true ∧ pid = pid2
  · rw [if_pos hc] at hs
    cases hl : lookupStock inv pid with
    | none => rw [hl] at hs; simp at hs
    | some s0 =>
      rw [hl] at hs
      simp at hs
      obtain ⟨s1, hs1, hq⟩ := update_stock_true_iff.1 hc.1
      rw [← hc.2, hl] at hs1
      have hs0 : s0 = s1 := Option.some.inj hs1
      omega
  · rw [if_neg hc] at hs
    exact h s hs

lemma settleLoopReserved_nil (inv : InventoryManager) (pid : ProductId) :
    settleLoopReserved inv [] pid = 0 := rfl

lemma settleLoopReserved_cons_zero {c : CartLine} (hq : ¬ 0 < c.quantity)
    (inv : InventoryManager) (rest : List CartLine) (pid : ProductId) :
    settleLoopReserved inv (c :: rest) pid = settleLoopReserved inv rest pid := by
  rw [settleLoopReserved, if_neg hq]

lemma settleLoopReserved_cons_true {c : CartLine} {inv inv1 : InventoryManager}
    (hq : 0 < c.quantity)
    (hu : update_stock inv c.product_id c.quantity = (true, inv1))
    (rest : List CartLine) (pid : ProductId) :
    settleLoopReserved inv (c :: rest) pid =
      (if c.product_id = pid then c.quantity else 0) +
        settleLoopReserved inv1 rest pid := by
  rw [settleLoopReserved, if_pos hq, hu]

lemma settleLoopReserved_cons_false {c : CartLine} {inv inv1 : InventoryManager}
    (hq : 0 < c.quantity)
    (hu : update_stock inv c.product_id c.quantity = (false, inv1))
    (rest : List CartLine) (pid : ProductId) :
    settleLoopReserved inv (c :: rest) pid = 0 := by
  rw [settleLoopReserved, if_pos hq, hu]

lemma independentLoopReserved_nil (inv : InventoryManager) (pid : ProductId) :
    independentLoopReserved inv [] pid = 0 := rfl

lemma independentLoopReserved_cons_inactive {p : SampledProduct}
    (hp : p.is_active = false) (inv : InventoryManager) (q : ℕ)
    (rest : List (SampledProduct × ℕ)) (pid : ProductId) :
    independentLoopReserved inv ((p, q) :: rest) pid =
      independentLoopReserved inv rest pid := by
  rw [independentLoopReserved, if_neg (by simp [hp])]

lemma independentLoopReserved_cons_true {p : SampledProduct} {q : ℕ}
    {inv inv1 : InventoryManager} (hp : p.is_active = true)
    (hu : update_stock inv p.product_id q = (true, inv1))
    (rest : List (SampledProduct × ℕ)) (pid : ProductId) :
    independentLoopReserved inv ((p, q) :: rest) pid =
      (if p.product_id = pid then q else 0) +
        independentLoopReserved inv1 rest pid := by
  rw [independentLoopReserved, if_pos hp, hu]

lemma independentLoopReserved_cons_false {p : SampledProduct} {q : ℕ}
    {inv inv1 : InventoryManager} (hp : p.is_active = true)
    (hu : update_stock inv p.product_id q = (false, inv1))
    (rest : List (SampledProduct × ℕ)) (pid : ProductId) :
    independentLoopReserved inv ((p, q) :: rest) pid =
      independentLoopReserved inv1 rest pid := by
  rw [independentLoopReserved, if_pos hp, hu]

lemma update_stock_lookup_true {inv inv1 : InventoryManager} {pid2 : ProductId}
    {q : ℕ} (hu : update_stock inv pid2 q = (true, inv1)) (pid : ProductId) :
    lookupStock inv1 pid =
      if pid = pid2 then (lookupStock inv pid).map (fun s => s - (q : ℤ))
      else lookupStock inv pid := by
  have h3 := update_stock_lookup inv pid2 q pid
  rw [hu] at h3
  simpa using h3

/-- The inventory left by the settlement loop: each product's stock has
dropped by exactly the quantity the loop successfully reserved for it. -/
lemma settleLoop_stock (cart : List CartLine) (inv : InventoryManager)
    (pid : ProductId) :
    lookupStock (settleLoop inv cart []).inv pid =
      (lookupStock inv pid).map
        (fun s => s - (settleLoopReserved inv cart pid : ℤ)) := by
  induction cart generalizing inv with
  | nil =>
    rw [settleLoop_nil, settleLoopReserved_nil]
    cases h : lookupStock inv pid <;> simp
  | cons c rest ih =>
    by_cases hq : 0 < c.quantity
    · cases hu : update_stock inv c.product_id c.quantity with
      | mk ok inv1 =>
        cases ok
        · rw [settleLoop_cons_false hq hu rest [],
            settleLoopReserved_cons_false hq hu rest pid]
          have hinv : inv1 = inv := by
            have h2 := @update_stock_false_snd inv c.product_id c.quantity
              (by rw [hu])
            rw [hu] at h2; exact h2
          subst hinv
          show lookupStock inv1 pid = _
          cases h : lookupStock inv1 pid <;> simp [h]
        · rw [settleLoop_cons_true hq hu rest [],
            settleLoopReserved_cons_true hq hu rest pid,
            settleLoop_acc rest inv1 ([] ++ [mkTxnItem c])]
          show lookupStock (settleLoop inv1 rest []).inv pid = _
          rw [ih inv1, update_stock_lookup_true hu pid]
          by_cases hp : pid = c.product_id
          · rw [if_pos hp, if_pos (by rw [hp] : c.product_id = pid)]
            cases h : lookupStock inv pid with
            | none => simp
            | some s =>
              simp only [Option.map_some', Option.some.injEq]
              push_cast
              ring
          · rw [if_neg hp, if_neg (fun h => hp h.symm)]
            cases h : lookupStock inv pid <;> simp
    · rw [settleLoop_cons_zero hq inv rest [],
        settleLoopReserved_cons_zero hq inv rest pid]
      exact ih inv

/-- Same accounting for the independent basket loop. -/
lemma independentLoop_stock (prods : List (SampledProduct × ℕ))
    (inv : InventoryManager) (pid : ProductId) :
    lookupStock (independentLoop inv prods []).1 pid =
      (lookupStock inv pid).map
        (fun s => s - (independentLoopReserved inv prods pid : ℤ)) := by
  induction prods generalizing inv with
  | nil =>
    rw [independentLoop_nil, independentLoopReserved_nil]
    cases h : lookupStock inv pid <;> simp
  | cons pq rest ih =>
    obtain ⟨p, q⟩ := pq
    cases hp : p.is_active
    · rw [independentLoop_cons_inactive hp inv q rest [],
        independentLoopReserved_cons_inactive hp inv q rest pid]
      exact ih inv
    · cases hu : update_stock inv p.product_id q with
      | mk ok inv1 =>
        cases ok
        · rw [independentLoop_cons_false hp hu rest [],
            independentLoopReserved_cons_false hp hu rest pid]
          have hinv : inv1 = inv := by
            have h2 := @update_stock_false_snd inv p.product_id q
              (by rw [hu])
            rw [hu] at h2; exact h2
          subst hinv
          exact ih inv1
        · rw [independentLoop_cons_true hp hu rest [],
            independentLoopReserved_cons_true hp hu rest pid,
            independentLoop_acc rest inv1 ([] ++ [_])]
          show lookupStock (independentLoop inv1 rest []).1 pid = _
          rw [ih inv1, update_stock_lookup_true hu pid]
          by_cases hpp : pid = p.product_id
          · rw [if_pos hpp, if_pos (by rw [hpp] : p.product_id = pid)]
            cases h : lookupStock inv pid with
            | none => simp
            | some s =>
              simp only [Option.map_some', Option.some.injEq]
              push_cast
              ring
          · rw [if_neg hpp, if_neg (fun h => hpp h.symm)]
            cases h : lookupStock inv pid <;> simp

lemma settleTransaction_fst (inv : InventoryManager) (cart : List CartLine)
    (session_id user_id : String) (o : Option (Fin 4)) :
    (settleTransaction inv cart session_id user_id o).1 =
      (settleLoop inv cart []).inv := by
  rw [settleTransaction_eq]
  split <;> rfl

lemma independentTransaction_fst (inv : InventoryManager)
    (prods : List (SampledProduct × ℕ)) (user_id : String) (o : Option (Fin 4)) :
    (independentTransaction inv prods user_id o).1 =
      (independentLoop inv prods []).1 := by
  rw [independentTransaction_eq]
  split <;> rfl

lemma applyOp_stock (inv : InventoryManager) (op : GenOp) (pid : ProductId) :
    lookupStock (applyOp inv op).1 pid =
      (lookupStock inv pid).map (fun s => s - (opReserved inv op pid : ℤ)) := by
  cases op with
  | settleOp cart session_id user_id o =>
    show lookupStock (settleTransaction inv cart session_id user_id o).1 pid = _
    rw [settleTransaction_fst, settleLoop_stock]
    rfl
  | indepOp prods user_id o =>
    show lookupStock (independentTransaction inv prods user_id o).1 pid = _
    rw [independentTransaction_fst, independentLoop_stock]
    rfl

/-- The inventory after a whole run: each product's stock has dropped by
exactly the total quantity successfully reserved during the run. -/
lemma runGen_stock (ops : List GenOp) (inv : InventoryManager) (pid : ProductId) :
    lookupStock (runGen inv ops).1 pid =
      (lookupStock inv pid).map (fun s => s - (runReserved inv ops pid : ℤ)) := by
  induction ops generalizing inv with
  | nil => cases h : lookupStock inv pid <;> simp [runGen, runReserved, h]
  | cons op rest ih =>
    show lookupStock (runGen (applyOp inv op).1 rest).1 pid = _
    rw [ih (applyOp inv op).1, applyOp_stock]
    show _ = (lookupStock inv pid).map (fun s =>
      s - ((opReserved inv op pid + runReserved (applyOp inv op).1 rest pid : ℕ) : ℤ))
    cases h : lookupStock inv pid with
    | none => simp
    | some s =>
      simp only [Option.map_some', Option.some.injEq]
      push_cast
      ring

lemma settleLoop_nonneg (cart : List CartLine) (inv : InventoryManager)
    (pid : ProductId) (h : ∀ s, lookupStock inv pid = some s → 0 ≤ s) :
    ∀ s, lookupStock (settleLoop inv cart []).inv pid = some s → 0 ≤ s := by
  induction cart generalizing inv with
  | nil => rw [settleLoop_nil]; exact h
  | cons c rest ih =>
    by_cases hq : 0 < c.quantity
    · cases hu : update_stock inv c.product_id c.quantity with
      | mk ok inv1 =>
        have h1 : ∀ s, lookupStock inv1 pid = some s → 0 ≤ s := by
          intro s hs
          apply update_stock_nonneg inv c.product_id c.quantity pid h
          rw [hu]
          exact hs
        cases ok
        · rw [settleLoop_cons_false hq hu rest []]
          exact h1
        · rw [settleLoop_cons_true hq hu rest [],
            settleLoop_acc rest inv1 ([] ++ [mkTxnItem c])]
          exact ih inv1 h1
    · rw [settleLoop_cons_zero hq inv rest []]
      exact ih inv h

lemma independentLoop_nonneg (prods : List (SampledProduct × ℕ))
    (inv : InventoryManager) (pid : ProductId)
    (h : ∀ s, lookupStock inv pid = some s → 0 ≤ s) :
    ∀ s, lookupStock (independentLoop inv prods []).1 pid = some s → 0 ≤ s := by
  induction prods generalizing inv with
  | nil => rw [independentLoop_nil]; exact h
  | cons pq rest ih =>
    obtain ⟨p, q⟩ := pq
    cases hp : p.is_active
    · rw [independentLoop_cons_inactive hp inv q rest []]
      exact ih inv h
    · cases hu : update_stock inv p.product_id q with
      | mk ok inv1 =>
        have h1 : ∀ s, lookupStock inv1 pid = some s → 0 ≤ s := by
          intro s hs
          apply update_stock_nonneg inv p.product_id q pid h
          rw [hu]
          exact hs
        cases ok
        · rw [independentLoop_cons_false hp hu rest []]
          exact ih inv1 h1
        · rw [independentLoop_cons_true hp hu rest [],
            independentLoop_acc rest inv1 ([] ++ [_])]
          exact ih inv1 h1

lemma applyOp_nonneg (inv : InventoryManager) (op : GenOp) (pid : ProductId)
    (h : ∀ s, lookupStock inv pid = some s → 0 ≤ s) :
    ∀ s, lookupStock (applyOp inv op).1 pid = some s → 0 ≤ s := by
  cases op with
  | settleOp cart session_id user_id o =>
    show ∀ s, lookupStock (settleTransaction inv cart session_id user_id o).1 pid =
      some s → 0 ≤ s
    rw [settleTransaction_fst]
    exact settleLoop_nonneg cart inv pid h
  | indepOp prods user_id o =>
    show ∀ s, lookupStock (independentTransaction inv prods user_id o).1 pid =
      some s → 0 ≤ s
    rw [independentTransaction_fst]
    exact independentLoop_nonneg prods inv pid h

lemma runGen_nonneg (ops : List GenOp) (inv : InventoryManager) (pid : ProductId)
    (h : ∀ s, lookupStock inv pid = some s → 0 ≤ s) :
    ∀ s, lookupStock (runGen inv ops).1 pid = some s → 0 ≤ s := by
  induction ops generalizing inv with
  | nil => exact h
  | cons op rest ih =>
    show ∀ s, lookupStock (runGen (applyOp inv op).1 rest).1 pid = some s → 0 ≤ s
    exact ih (applyOp inv op).1 (applyOp_nonneg inv op pid h)

/-- COUNTEREXAMPLE to C1 as stated — a run with one session-linked
settlement whose second cart line exceeds stock: the first line's
reservation (2 of "A") goes through and is not rolled back, the
settlement aborts, and no transaction is committed.  "A" ends at 8,
while initial stock minus the committed-transaction quantities is
10 − 0 = 10: the as-stated equation fails (the non-negativity half
does hold, see the amended theorem). -/
theorem stock_vs_committed_counterexample :
    lookupStock (runGen ⟨[("A", 10), ("B", 3)]⟩
        [GenOp.settleOp [⟨"A", 2, 5⟩, ⟨"B", 5, 5⟩] "s" "u" none]).1 "A" =
      some 8 ∧
    txnsQty (runGen ⟨[("A", 10), ("B", 3)]⟩
        [GenOp.settleOp [⟨"A", 2, 5⟩, ⟨"B", 5, 5⟩] "s" "u" none]).2 "A" = 0 ∧
    lookupStock (runGen ⟨[("A", 10), ("B", 3)]⟩
        [GenOp.settleOp [⟨"A", 2, 5⟩, ⟨"B", 5, 5⟩] "s" "u" none]).1 "A" ≠
      some (10 - (txnsQty (runGen ⟨[("A", 10), ("B", 3)]⟩
        [GenOp.settleOp [⟨"A", 2, 5⟩, ⟨"B", 5, 5⟩] "s" "u" none]).2 "A" : ℤ)) := by
  refine ⟨by decide, by decide, by decide⟩

/-- CLAIM C1 (amended) — after the run, every product's stock equals its
initial stock minus the total quantity *successfully reserved* during
the run (the committed transactions' quantities plus the reservations of
earlier cart lines of aborted session-linked settlements, which are not
rolled back); and a stock that starts nonnegative is nonnegative after
every prefix of the run (every intermediate mutation goes through
`update_stock`, which only subtracts under its stock-sufficiency
guard). -/
theorem stock_accounting (inv : InventoryManager) (ops : List GenOp)
    (pid : ProductId) (s0 : ℤ) (h : lookupStock inv pid = some s0)
    (h0 : 0 ≤ s0) :
    lookupStock (runGen inv ops).1 pid =
      some (s0 - (runReserved inv ops pid : ℤ)) ∧
    (∀ k s, lookupStock (runGen inv (ops.take k)).1 pid = some s → 0 ≤ s) := by
  constructor
  · rw [runGen_stock, h]
    rfl
  · intro k s hs
    exact runGen_nonneg (ops.take k) inv pid
      (fun s1 hs1 => by rw [h] at hs1; cases hs1; exact h0) s hs

/-- Witness for C1 (amended) at the counterexample's run: stock of "A"
ends at its initial 10 minus the 2 units reserved during the aborted
settlement. -/
theorem stock_accounting_witness :
    lookupStock (runGen ⟨[("A", 10), ("B", 3)]⟩
        [GenOp.settleOp [⟨"A", 2, 5⟩, ⟨"B", 5, 5⟩] "s" "u" none]).1 "A" =
      some (10 - (runReserved ⟨[("A", 10), ("B", 3)]⟩
        [GenOp.settleOp [⟨"A", 2, 5⟩, ⟨"B", 5, 5⟩] "s" "u" none] "A" : ℤ)) ∧
    runReserved ⟨[("A", 10), ("B", 3)]⟩
        [GenOp.settleOp [⟨"A", 2, 5⟩, ⟨"B", 5, 5⟩] "s" "u" none] "A" = 2 :=
  ⟨(stock_accounting ⟨[("A", 10), ("B", 3)]⟩
      [GenOp.settleOp [⟨"A", 2, 5⟩, ⟨"B", 5, 5⟩] "s" "u" none] "A" 10
      (by decide) (by decide)).1, by decide⟩
